import Mathlib

/-
Verification of the part-sync engine in sync.py: a shallow embedding of its
data model and control flow, with theorems settling the specified properties.
I/O boundaries (the database, the HTTP transport) are made explicit as
parameters: the list of database rows, the stream of page responses for the
paginated read, and a response oracle for the batch writes.
-/

set_option autoImplicit false

namespace Sync

/-- Batch size for chunked writes: BATCH = 100 in sync.py. -/
def BATCH : Nat := 100

/-- A part record as produced by the SELECT in fetch_parts: columns mpn,
COALESCE of name and mpn as name, ROUND of price to 2 decimals cast to text
as price, COALESCE of stock_qty and 0 cast to int as stock_qty. -/
structure PartRecord where
  mpn : String
  name : String
  price : String
  stock_qty : Int
  deriving DecidableEq

/-- A raw row of the parts table, before the SELECT projection. Option
models SQL NULL in the nullable columns. -/
structure DbRow where
  mpn : String
  name : Option String
  price : Option Rat
  stock_qty : Option Int
  deriving DecidableEq

/-- The Woo product payload built by to_payload. The optional id field is
absent from the dict as built and is stamped later by run for updates. -/
structure SyncPayload where
  name : String
  sku : String
  regular_price : String
  manage_stock : Bool
  stock_quantity : Int
  stock_status : String
  id : Option Int
  deriving DecidableEq

/-- Embedding of to_payload (sync.py lines 53 to 64). The price column is
already a string, so str of it is the string itself. -/
def to_payload (row : PartRecord) : SyncPayload :=
  { name := row.name
    sku := row.mpn
    regular_price := row.price
    manage_stock := true
    stock_quantity := row.stock_qty
    stock_status := if 0 < row.stock_qty then "instock" else "outofstock"
    id := none }

/-- Python dict lookup, dict.get(k): the value bound to the first (and in a
dict, only) occurrence of the key, if any. -/
def dictGet (m : List (String × Int)) (k : String) : Option Int :=
  match m with
  | [] => none
  | p :: rest => if p.1 = k then some p.2 else dictGet rest k

/-- Python dict assignment m[k] = v: replace the binding in place when the
key is present, append a new binding otherwise (insertion order semantics). -/
def dictSet (m : List (String × Int)) (k : String) (v : Int) : List (String × Int) :=
  match m with
  | [] => [(k, v)]
  | p :: rest => if p.1 = k then (k, v) :: rest else p :: dictSet rest k v

/-- The planning loop of run (sync.py lines 89 to 97): for each part build
its payload, look the mpn up in the index of existing products, and route on
Python truthiness of the result: a missing key, and also a present key bound
to the id 0, routes to create; a nonzero id routes to update with the id
stamped into the payload. -/
def reconcile (parts : List PartRecord) (index : List (String × Int)) :
    List SyncPayload × List SyncPayload :=
  match parts with
  | [] => ([], [])
  | row :: rest =>
    let payload := to_payload row
    let tail := reconcile rest index
    match dictGet index row.mpn with
    | some pid =>
      if pid = 0 then (payload :: tail.1, tail.2)
      else (tail.1, { payload with id := some pid } :: tail.2)
    | none => (payload :: tail.1, tail.2)

/-- Whether existing.get(mpn) is truthy in Python: the key is present and its
value is nonzero. -/
def isTruthyHit (index : List (String × Int)) (mpn : String) : Bool :=
  match dictGet index mpn with
  | some v => decide (v ≠ 0)
  | none => false

universe u

/-- Two digit zero padded rendering of a value below 100, the fractional part
of a numeric cast to text at scale 2. -/
def pad2 (n : Nat) : String :=
  if n < 10 then "0" ++ toString n else toString n

/-- Floor of a nonnegative rational, as a natural number. -/
def ratFloorNat (r : Rat) : Nat := r.num.toNat / r.den

/-- ROUND(price, 2) of PostgreSQL expressed in cents: numeric rounding is
half away from zero. -/
def priceCents (q : Rat) : Int :=
  if 0 ≤ q then (ratFloorNat (q * 100 + 1 / 2) : Int)
  else -(ratFloorNat (-q * 100 + 1 / 2) : Int)

/-- Text rendering of ROUND(price, 2)::text: sign, integer part, point, and
a two digit fractional part (scale 2 is preserved by the cast). -/
def formatPrice2 (q : Rat) : String :=
  let c := priceCents q
  (if c < 0 then "-" else "") ++ toString (c.natAbs / 100) ++ "." ++ pad2 (c.natAbs % 100)

/-- The SELECT projection of fetch_parts applied to one raw row:
COALESCE(name, mpn), ROUND(price, 2)::text, COALESCE(stock_qty, 0)::int. -/
def selectRow (r : DbRow) : PartRecord :=
  { mpn := r.mpn
    name := r.name.getD r.mpn
    price := formatPrice2 (r.price.getD 0)
    stock_qty := r.stock_qty.getD 0 }

/-- Ordered insertion used to model ORDER BY mpn. -/
def insertByMpn (r : PartRecord) : List PartRecord → List PartRecord
  | [] => [r]
  | x :: xs => if r.mpn ≤ x.mpn then r :: x :: xs else x :: insertByMpn r xs

/-- ORDER BY mpn: sort the projected rows by their mpn. -/
def sortByMpn (l : List PartRecord) : List PartRecord :=
  l.foldr insertByMpn []

/-- Embedding of fetch_parts (sync.py lines 16 to 35) over an explicit list
of raw table rows: WHERE price IS NOT NULL, the SELECT projection, ORDER BY
mpn, and LIMIT added only when the Python limit argument is truthy and
positive. -/
def fetch_parts (rows : List DbRow) (limit : Option Int) : List PartRecord :=
  let sorted := sortByMpn ((rows.filter (fun r => r.price.isSome)).map selectRow)
  match limit with
  | some l => if 0 < l then sorted.take l.toNat else sorted
  | none => sorted

/-- A remote product as observed during index building: an id and a possibly
absent or null sku. -/
structure WooItem where
  id : Int
  sku : Option String
  deriving DecidableEq

/-- A response to one GET page request in sku_id_map: a 429, a successful
JSON array, or any other non success status (which raise_for_status turns
into an exception). -/
inductive PageResp where
  | rateLimited
  | ok (items : List WooItem)
  | httpErr (code : Nat)
  deriving DecidableEq

/-- State of the pagination walk in sku_id_map: the map built so far and the
next page number to request. -/
structure WalkState where
  m : List (String × Int)
  page : Nat
  deriving DecidableEq

/-- Result of handling one page response inside the while loop. -/
inductive WalkStepRes where
  | next (s : WalkState) (sleep : Nat)
  | done (m : List (String × Int))
  | fail (code : Nat)
  deriving DecidableEq

/-- The inner for loop of sku_id_map over one page: for each item take its
sku; when the sku is truthy (present and nonempty) bind sku to id in the
map, otherwise skip the item. -/
def addPage (m : List (String × Int)) (items : List WooItem) : List (String × Int) :=
  items.foldl
    (fun acc it =>
      match it.sku with
      | none => acc
      | some sk => if sk = "" then acc else dictSet acc sk it.id)
    m

/-- One iteration of the while loop of sku_id_map (sync.py lines 40 to 50)
given the response to the current page request: on 429 sleep 2 and retry
with the state unchanged, on any other non success raise, on an empty array
break returning the map, on a nonempty array fold the items in and advance
the page counter. -/
def walkStep (s : WalkState) (r : PageResp) : WalkStepRes :=
  match r with
  | .rateLimited => .next s 2
  | .httpErr code => .fail code
  | .ok items =>
    match items with
    | [] => .done s.m
    | _ :: _ => .next { m := addPage s.m items, page := s.page + 1 } 0

/-- The while loop of sku_id_map driven by an explicit finite stream of page
responses, counting the GET requests issued. The result is none when the
stream is exhausted with the loop still running, and otherwise the outcome
(the finished map, or the status of a fatal response) paired with the number
of requests consumed. -/
def sku_id_map_aux (s : WalkState) (resps : List PageResp) (n : Nat) :
    Option (Except Nat (List (String × Int)) × Nat) :=
  match resps with
  | [] => none
  | r :: rs =>
    match walkStep s r with
    | .next s' _ => sku_id_map_aux s' rs (n + 1)
    | .done m => some (.ok m, n + 1)
    | .fail code => some (.error code, n + 1)

/-- Embedding of sku_id_map (sync.py lines 37 to 51): start with an empty
map at page 1. -/
def sku_id_map (resps : List PageResp) : Option (Except Nat (List (String × Int)) × Nat) :=
  sku_id_map_aux { m := [], page := 1 } resps 0

/-- Body of a successful batch response: the lists under the create and
update keys, each defaulting to empty when the key is missing, exactly as
resp.get reads them. -/
structure WooBatchBody where
  create : List SyncPayload
  update : List SyncPayload
  deriving DecidableEq

/-- A response to one POST of the batch endpoint: a 429, a success with a
JSON body, or any other non success status carrying its parsed body text. -/
inductive WriteResp where
  | rateLimited
  | ok (body : WooBatchBody)
  | err (code : Nat) (body : String)

/-- Outcome of push_batch: the parsed body on success, the fail fast error
carrying status and body, or the distinct exhaustion error after the retry
cap. -/
inductive PushOutcome where
  | success (body : WooBatchBody)
  | fatal (code : Nat) (body : String)
  | exhausted
  deriving DecidableEq

/-- The for loop of push_batch over attempts, driven by a response oracle
indexed by attempt number. Returns the outcome, the number of requests
issued, and the total units slept. On a 429 the loop sleeps 2 and consumes
one attempt; on success it returns the body; on any other non success it
raises at once with status and body; when the attempts run out it raises the
distinct exhaustion error. -/
def push_batch_loop (resps : Nat → WriteResp) : Nat → Nat → Nat → PushOutcome × Nat × Nat
  | 0, attempt, slept => (.exhausted, attempt, slept)
  | fuel + 1, attempt, slept =>
    match resps attempt with
    | .rateLimited => push_batch_loop resps fuel (attempt + 1) (slept + 2)
    | .ok body => (.success body, attempt + 1, slept)
    | .err code body => (.fatal code body, attempt + 1, slept)

/-- Embedding of push_batch (sync.py lines 66 to 80): range(3) gives exactly
three attempts starting at attempt 0. -/
def push_batch (resps : Nat → WriteResp) : PushOutcome × Nat × Nat :=
  push_batch_loop resps 3 0 0

/-- A batch request body as submitted by run: a chunk under the create key
or a chunk under the update key. -/
inductive BatchReq where
  | createReq (chunk : List SyncPayload)
  | updateReq (chunk : List SyncPayload)
  deriving DecidableEq

/-- The errors that abort run: a fatal page status during index building, a
fatal write status, or write retry exhaustion. -/
inductive RunError where
  | pageErr (code : Nat)
  | writeFatal (code : Nat) (body : String)
  | writeExhausted
  deriving DecidableEq

/-- The summary dict returned by run. -/
structure Summary where
  created : Nat
  updated : Nat
  dry_run : Bool
  deriving DecidableEq

/-- The chunk slicing of the dispatch loops, with explicit fuel bounded by
the list length: range(0, len(xs), size) slices xs into consecutive pieces
xs[i:i+size]. -/
def chunksOfF {α : Type u} (size : Nat) : Nat → List α → List (List α)
  | _, [] => []
  | 0, _ :: _ => []
  | fuel + 1, x :: rest => ((x :: rest).take size) :: chunksOfF size fuel ((x :: rest).drop size)

/-- Consecutive chunks of at most size elements, as produced by the slicing
loops of run. -/
def chunksOf {α : Type u} (size : Nat) (xs : List α) : List (List α) :=
  chunksOfF size xs.length xs

/-- One dispatch loop of run over the chunks of one kind: submit each chunk
through push_batch in order, add the length of the list under the relevant
response key to the running total, and abort on the first failed chunk. The
write oracle is indexed by the global count of push_batch calls; the trace
accumulates every submitted request body. -/
def dispatchKind (oracle : Nat → Nat → WriteResp) (mk : List SyncPayload → BatchReq)
    (count : WooBatchBody → Nat) (chunks : List (List SyncPayload))
    (callIdx total : Nat) (trace : List BatchReq) :
    Except RunError Nat × Nat × List BatchReq :=
  match chunks with
  | [] => (.ok total, callIdx, trace)
  | c :: cs =>
    match (push_batch (oracle callIdx)).1 with
    | .success body => dispatchKind oracle mk count cs (callIdx + 1) (total + count body) (trace ++ [mk c])
    | .fatal code body => (.error (.writeFatal code body), callIdx + 1, trace ++ [mk c])
    | .exhausted => (.error .writeExhausted, callIdx + 1, trace ++ [mk c])

/-- The observable outcome of run: the summary or the aborting error, the
number of GET page requests issued, and the batch request bodies submitted. -/
structure RunResult where
  result : Except RunError Summary
  pageRequests : Nat
  writeBodies : List BatchReq

/-- The external world of one run: the rows of the parts table, the stream
of responses to the page requests, and the oracle of responses to the batch
write attempts (first index: which push_batch call, second: which attempt). -/
structure RunEnv where
  dbRows : List DbRow
  pageResps : List PageResp
  writeResps : Nat → Nat → WriteResp

/-- The create phase dispatch of run: the create chunks, starting at call
index 0 with an empty trace. -/
def wetD1 (oracle : Nat → Nat → WriteResp) (cu : List SyncPayload × List SyncPayload) :
    Except RunError Nat × Nat × List BatchReq :=
  dispatchKind oracle .createReq (fun b => b.create.length) (chunksOf BATCH cu.1) 0 0 []

/-- The update phase dispatch of run: the update chunks, continuing from the
call index and trace left by the create phase. -/
def wetD2 (oracle : Nat → Nat → WriteResp) (cu : List SyncPayload × List SyncPayload) :
    Except RunError Nat × Nat × List BatchReq :=
  dispatchKind oracle .updateReq (fun b => b.update.length) (chunksOf BATCH cu.2)
    (wetD1 oracle cu).2.1 0 (wetD1 oracle cu).2.2

/-- The write phase of run: push the create chunks, then on success the
update chunks, and assemble the summary from the totals reported under the
matching response keys; the first failed chunk aborts with its error. -/
def runWet (oracle : Nat → Nat → WriteResp) (cu : List SyncPayload × List SyncPayload)
    (nPages : Nat) : RunResult :=
  match (wetD1 oracle cu).1 with
  | .error e =>
    { result := .error e, pageRequests := nPages, writeBodies := (wetD1 oracle cu).2.2 }
  | .ok createdTotal =>
    match (wetD2 oracle cu).1 with
    | .error e =>
      { result := .error e, pageRequests := nPages, writeBodies := (wetD2 oracle cu).2.2 }
    | .ok updatedTotal =>
      { result := .ok { created := createdTotal, updated := updatedTotal, dry_run := false },
        pageRequests := nPages, writeBodies := (wetD2 oracle cu).2.2 }

/-- Embedding of run (sync.py lines 82 to 124): fetch the parts, build the
remote index, partition into create and update, return early on dry_run, and
otherwise push the create chunks then the update chunks, summing the lengths
reported under the matching response key. The result is none only when the
page response stream is exhausted before the walk finishes. -/
def run (env : RunEnv) (limit : Option Int) (dry : Bool) : Option RunResult :=
  let parts := fetch_parts env.dbRows limit
  match sku_id_map env.pageResps with
  | none => none
  | some (res, nPages) =>
    match res with
    | .error code => some { result := .error (.pageErr code), pageRequests := nPages, writeBodies := [] }
    | .ok existing =>
      let cu := reconcile parts existing
      if dry then
        some { result := .ok { created := cu.1.length, updated := cu.2.length, dry_run := true }
               pageRequests := nPages, writeBodies := [] }
      else
        some (runWet env.writeResps cu nPages)

/-- Claim C1 as stated is false: routing is decided by Python truthiness of
existing.get, not by key membership. With the index binding the key A to the
id 0, the part with mpn A is routed to create even though A is a key of the
index, and the update list stays empty. -/
theorem reconcile_key_zero_id_cex :
    (dictGet [("A", 0)] "A").isSome = true
    ∧ (reconcile [{ mpn := "A", name := "A", price := "1.00", stock_qty := 1 }] [("A", 0)]).2 = []
    ∧ (reconcile [{ mpn := "A", name := "A", price := "1.00", stock_qty := 1 }] [("A", 0)]).1.length = 1 := by
  decide

/-- Claim C1 amended: the reconciliation step appends each part, in input
order, to exactly one list: to update with the id from the index exactly
when its mpn is bound in the index to a nonzero id (a binding to 0 is falsy
in Python and routes to create), and otherwise to create without an id; both
lists are stable under the input order and their lengths sum to the number
of parts. -/
theorem reconcile_stable_partition (parts : List PartRecord) (index : List (String × Int)) :
    (reconcile parts index).1
        = (parts.filter (fun r => !(isTruthyHit index r.mpn))).map to_payload
    ∧ (reconcile parts index).2
        = (parts.filter (fun r => isTruthyHit index r.mpn)).map
            (fun r => { to_payload r with id := dictGet index r.mpn })
    ∧ (reconcile parts index).1.length + (reconcile parts index).2.length = parts.length := by
  induction parts with
  | nil => exact ⟨rfl, rfl, rfl⟩
  | cons row rest ih =>
    obtain ⟨ih1, ih2, ih3⟩ := ih
    cases h : dictGet index row.mpn with
    | none =>
      refine ⟨?_, ?_, ?_⟩
      · simp [reconcile, isTruthyHit, h, List.filter_cons, ih1, ih2]
      · simp [reconcile, isTruthyHit, h, List.filter_cons, ih1, ih2]
      · simp [reconcile, h]; omega
    | some pid =>
      by_cases hz : pid = 0
      · subst hz
        refine ⟨?_, ?_, ?_⟩
        · simp [reconcile, isTruthyHit, h, List.filter_cons, ih1, ih2]
        · simp [reconcile, isTruthyHit, h, List.filter_cons, ih1, ih2]
        · simp [reconcile, h]; omega
      · refine ⟨?_, ?_, ?_⟩
        · simp [reconcile, isTruthyHit, h, hz, List.filter_cons, ih1, ih2]
        · simp [reconcile, isTruthyHit, h, hz, List.filter_cons, ih1, ih2]
        · simp [reconcile, h, hz]; omega

/-- Claim C4: to_payload is a pure function of the record; sku equals mpn,
regular_price is the price string copied verbatim, manage_stock is true, and
stock_status is instock exactly when stock_qty is positive, so a zero
stock_qty yields outofstock. -/
theorem to_payload_pure_fields (r r' : PartRecord) :
    (to_payload r).sku = r.mpn
    ∧ (to_payload r).regular_price = r.price
    ∧ (to_payload r).manage_stock = true
    ∧ ((to_payload r).stock_status = "instock" ↔ 0 < r.stock_qty)
    ∧ (r.stock_qty = 0 → (to_payload r).stock_status = "outofstock")
    ∧ (r = r' → to_payload r = to_payload r') := by
  refine ⟨rfl, rfl, rfl, ?_, ?_, ?_⟩
  · by_cases h : 0 < r.stock_qty <;> simp [to_payload, h]
  · intro h; simp [to_payload, h]
  · intro h; rw [h]

/-- Witness for the pure mapper claim: boundary record with zero stock maps
to outofstock, and the mapping is reproducible on a concrete record. -/
theorem to_payload_pure_fields_witness :
    (to_payload { mpn := "A", name := "A", price := "1.00", stock_qty := 0 }).stock_status
        = "outofstock"
    ∧ to_payload { mpn := "B", name := "B", price := "2.00", stock_qty := 3 }
        = to_payload { mpn := "B", name := "B", price := "2.00", stock_qty := 3 } :=
  ⟨(to_payload_pure_fields { mpn := "A", name := "A", price := "1.00", stock_qty := 0 }
      { mpn := "A", name := "A", price := "1.00", stock_qty := 0 }).2.2.2.2.1 rfl,
   (to_payload_pure_fields { mpn := "B", name := "B", price := "2.00", stock_qty := 3 }
      { mpn := "B", name := "B", price := "2.00", stock_qty := 3 }).2.2.2.2.2 rfl⟩

/-- The attempt counter of the write retry loop never exceeds the starting
attempt plus the remaining fuel. -/
theorem push_batch_loop_attempts_le (resps : Nat → WriteResp) :
    ∀ fuel attempt slept, (push_batch_loop resps fuel attempt slept).2.1 ≤ attempt + fuel := by
  intro fuel
  induction fuel with
  | zero => intro a s; simp [push_batch_loop]
  | succ f ih =>
    intro a s
    cases h : resps a with
    | rateLimited =>
      simp only [push_batch_loop, h]
      exact le_trans (ih (a + 1) (s + 2)) (by omega)
    | ok b => simp [push_batch_loop, h]
    | err c b => simp [push_batch_loop, h]

/-- The write retry loop only consults the oracle on the attempts it can
still make. -/
theorem push_batch_loop_congr (resps resps' : Nat → WriteResp) :
    ∀ fuel attempt slept, (∀ i, i < attempt + fuel → resps i = resps' i) →
      push_batch_loop resps fuel attempt slept = push_batch_loop resps' fuel attempt slept := by
  intro fuel
  induction fuel with
  | zero => intro a s _; rfl
  | succ f ih =>
    intro a s hag
    have ha : resps a = resps' a := hag a (by omega)
    cases h : resps a with
    | rateLimited =>
      simp only [push_batch_loop, h, ha.symm.trans h]
      exact ih (a + 1) (s + 2) (fun i hi => hag i (by omega))
    | ok b => simp [push_batch_loop, h, ha.symm.trans h]
    | err c b => simp [push_batch_loop, h, ha.symm.trans h]

/-- Claim C2: per chunk the batch write makes at most 3 request attempts; a
429 consumes one attempt after a backoff of 2 units; three straight 429
responses end in the distinct exhaustion error after exactly 3 attempts and
6 slept units, and the oracle is never consulted past attempt index 2 (no
4th attempt); a non 429 non success response at any reachable attempt is
immediately fatal, carrying its status and body, with no further attempt;
and a success returns the parsed body at once. -/
theorem push_batch_retry_policy (resps resps' : Nat → WriteResp) (code : Nat)
    (body : String) (b : WooBatchBody) :
    (push_batch resps).2.1 ≤ 3
    ∧ (∀ fuel attempt slept, resps attempt = .rateLimited →
        push_batch_loop resps (fuel + 1) attempt slept
          = push_batch_loop resps fuel (attempt + 1) (slept + 2))
    ∧ ((∀ i, i < 3 → resps i = .rateLimited) → push_batch resps = (.exhausted, 3, 6))
    ∧ ((∀ i, i < 3 → resps i = resps' i) → push_batch resps = push_batch resps')
    ∧ (∀ k, k < 3 → (∀ i, i < k → resps i = .rateLimited) → resps k = .err code body →
        push_batch resps = (.fatal code body, k + 1, 2 * k))
    ∧ (resps 0 = .ok b → push_batch resps = (.success b, 1, 0)) := by
  refine ⟨?_, ?_, ?_, ?_, ?_, ?_⟩
  · exact push_batch_loop_attempts_le resps 3 0 0
  · intro fuel attempt slept h
    simp [push_batch_loop, h]
  · intro h
    simp [push_batch, push_batch_loop,
      h 0 (by omega), h 1 (by omega), h 2 (by omega)]
  · intro h
    exact push_batch_loop_congr resps resps' 3 0 0 h
  · intro k hk hpre hk429
    interval_cases k
    · simp [push_batch, push_batch_loop, hk429]
    · simp [push_batch, push_batch_loop, hpre 0 (by omega), hk429]
    · simp [push_batch, push_batch_loop, hpre 0 (by omega), hpre 1 (by omega), hk429]
  · intro h
    simp [push_batch, push_batch_loop, h]

/-- Witness for the retry policy: three simulated 429 responses exhaust the
chunk in exactly 3 attempts, an immediate server error is fatal on attempt
one with its status and body, and an immediate success returns the body. -/
theorem push_batch_retry_policy_witness :
    push_batch (fun _ => WriteResp.rateLimited) = (.exhausted, 3, 6)
    ∧ push_batch (fun _ => WriteResp.err 500 "boom") = (.fatal 500 "boom", 1, 0)
    ∧ push_batch (fun _ => WriteResp.ok { create := [], update := [] })
        = (.success { create := [], update := [] }, 1, 0) :=
  ⟨(push_batch_retry_policy (fun _ => WriteResp.rateLimited)
      (fun _ => WriteResp.rateLimited) 0 "" { create := [], update := [] }).2.2.1
      (fun _ _ => rfl),
   (push_batch_retry_policy (fun _ => WriteResp.err 500 "boom")
      (fun _ => WriteResp.err 500 "boom") 500 "boom" { create := [], update := [] }).2.2.2.2.1
      0 (by omega) (fun i hi => absurd hi (Nat.not_lt_zero i)) rfl,
   (push_batch_retry_policy (fun _ => WriteResp.ok { create := [], update := [] })
      (fun _ => WriteResp.ok { create := [], update := [] }) 0 ""
      { create := [], update := [] }).2.2.2.2.2 rfl⟩

/-- Looking up the key just assigned yields the assigned value. -/
theorem dictGet_dictSet_self (m : List (String × Int)) (k : String) (v : Int) :
    dictGet (dictSet m k v) k = some v := by
  induction m with
  | nil => simp [dictGet, dictSet]
  | cons p rest ih =>
    by_cases h : p.1 = k
    · simp [dictGet, dictSet, h]
    · simp [dictGet, dictSet, h, ih]

/-- Assigning one key leaves the lookup of any other key unchanged. -/
theorem dictGet_dictSet_other (m : List (String × Int)) (k k' : String) (v : Int)
    (hne : k' ≠ k) : dictGet (dictSet m k v) k' = dictGet m k' := by
  have h1 : ¬(k = k') := fun hk => hne hk.symm
  induction m with
  | nil => simp only [dictSet, dictGet, if_neg h1]
  | cons p rest ih =>
    simp only [dictSet]
    by_cases h : p.1 = k
    · rw [if_pos h]
      have h2 : ¬(p.1 = k') := by rw [h]; exact h1
      simp only [dictGet, if_neg h1, if_neg h2]
    · rw [if_neg h]
      simp only [dictGet]
      by_cases h' : p.1 = k'
      · simp only [if_pos h']
      · simp only [if_neg h', ih]

/-- Folding a page whose every item has an absent or empty sku leaves the
map unchanged. -/
theorem addPage_all_skipped (m : List (String × Int)) (items : List WooItem)
    (h : ∀ it ∈ items, it.sku = none ∨ it.sku = some "") : addPage m items = m := by
  induction items generalizing m with
  | nil => rfl
  | cons it rest ih =>
    have hit := h it (by simp)
    have hrest : ∀ x ∈ rest, x.sku = none ∨ x.sku = some "" :=
      fun x hx => h x (by simp [hx])
    rcases hit with hn | he
    · simpa [addPage, List.foldl_cons, hn] using ih m hrest
    · simpa [addPage, List.foldl_cons, he] using ih m hrest

/-- Key membership after folding a page: a key is present afterwards exactly
when it was present before or some item of the page carries it as a
nonempty sku. -/
theorem addPage_keys (items : List WooItem) :
    ∀ (m : List (String × Int)) (k : String),
      (dictGet (addPage m items) k).isSome
        ↔ ((dictGet m k).isSome ∨ ∃ it ∈ items, it.sku = some k ∧ k ≠ "") := by
  induction items with
  | nil => intro m k; simp [addPage]
  | cons it rest ih =>
    intro m k
    cases hsku : it.sku with
    | none =>
      have step : addPage m (it :: rest) = addPage m rest := by
        simp [addPage, List.foldl_cons, hsku]
      rw [step, ih m k]
      simp [hsku]
    | some sk =>
      by_cases hemp : sk = ""
      · subst hemp
        have step : addPage m (it :: rest) = addPage m rest := by
          simp [addPage, List.foldl_cons, hsku]
        rw [step, ih m k]
        constructor
        · rintro (h | h)
          · exact Or.inl h
          · exact Or.inr (by obtain ⟨x, hx, hxs⟩ := h; exact ⟨x, by simp [hx], hxs⟩)
        · rintro (h | ⟨x, hx, hxs, hk⟩)
          · exact Or.inl h
          · rcases List.mem_cons.mp hx with hx1 | hx2
            · subst hx1; rw [hsku] at hxs; cases hxs; exact absurd rfl hk
            · exact Or.inr ⟨x, hx2, hxs, hk⟩
      · have step : addPage m (it :: rest) = addPage (dictSet m sk it.id) rest := by
          simp [addPage, List.foldl_cons, hsku, hemp]
        rw [step, ih (dictSet m sk it.id) k]
        by_cases hk : k = sk
        · subst hk
          simp [dictGet_dictSet_self, hsku, hemp]
        · rw [dictGet_dictSet_other m sk k it.id hk]
          constructor
          · rintro (h | ⟨x, hx, hxs, hke⟩)
            · exact Or.inl h
            · exact Or.inr ⟨x, by simp [hx], hxs, hke⟩
          · rintro (h | ⟨x, hx, hxs, hke⟩)
            · exact Or.inl h
            · rcases List.mem_cons.mp hx with hx1 | hx2
              · subst hx1; rw [hsku] at hxs; cases hxs; exact absurd rfl hk
              · exact Or.inr ⟨x, hx2, hxs, hke⟩

/-- Claim C6: the pagination walk stops exactly at the first empty page: an
empty array ends the walk at once with the map built so far, whatever
responses follow, while a nonempty array folds its items in and continues;
and within a page, items with an absent, null or empty sku are skipped (a
page of only such items leaves the map unchanged, and a key is present in
the resulting map exactly when a nonempty sku equal to it was observed). -/
theorem sku_id_map_empty_page_stop :
    (∀ (s : WalkState) (rs : List PageResp) (n : Nat),
        sku_id_map_aux s (.ok [] :: rs) n = some (.ok s.m, n + 1))
    ∧ (∀ (s : WalkState) (it : WooItem) (its : List WooItem) (rs : List PageResp) (n : Nat),
        sku_id_map_aux s (.ok (it :: its) :: rs) n
          = sku_id_map_aux { m := addPage s.m (it :: its), page := s.page + 1 } rs (n + 1))
    ∧ (∀ (m : List (String × Int)) (items : List WooItem),
        (∀ it ∈ items, it.sku = none ∨ it.sku = some "") → addPage m items = m)
    ∧ (∀ (items : List WooItem) (m : List (String × Int)) (k : String),
        (dictGet (addPage m items) k).isSome
          ↔ ((dictGet m k).isSome ∨ ∃ it ∈ items, it.sku = some k ∧ k ≠ "")) := by
  refine ⟨?_, ?_, ?_, ?_⟩
  · intro s rs n; rfl
  · intro s it its rs n; rfl
  · exact addPage_all_skipped
  · exact fun items m k => addPage_keys items m k

/-- Witness for the pagination walk claim: a full walk over one page whose
items carry the skus A, an empty one and an absent one ends at the empty
second page with only A in the index. -/
theorem sku_id_map_empty_page_stop_witness :
    addPage [("B", 7)] [{ id := 5, sku := none }, { id := 6, sku := some "" }] = [("B", 7)]
    ∧ sku_id_map_aux { m := [("B", 7)], page := 2 } [.ok []] 1
        = some (.ok [("B", 7)], 2) :=
  ⟨sku_id_map_empty_page_stop.2.2.1 [("B", 7)]
      [{ id := 5, sku := none }, { id := 6, sku := some "" }] (by decide),
   sku_id_map_empty_page_stop.1 { m := [("B", 7)], page := 2 } [] 1⟩

/-- Helper for the uncapped read retry: any run of 429 responses is consumed
one request at a time with the walk state unchanged. -/
theorem sku_id_map_aux_replicate_429 (n : Nat) :
    ∀ (s : WalkState) (rs : List PageResp) (k : Nat),
      sku_id_map_aux s (List.replicate n .rateLimited ++ rs) k
        = sku_id_map_aux s rs (k + n) := by
  induction n with
  | zero => intro s rs k; rfl
  | succ n ih =>
    intro s rs k
    rw [List.replicate_succ, List.cons_append]
    show sku_id_map_aux s (List.replicate n .rateLimited ++ rs) (k + 1)
      = sku_id_map_aux s rs (k + (n + 1))
    rw [ih s rs (k + 1)]
    congr 1
    omega

/-- Claim C7: a 429 during the index walk backs off 2 units and retries with
the page counter unchanged, and this loop has no attempt cap: any number of
429 responses in a row is absorbed without error (the walk merely continues,
and a stream of only 429 responses never produces an outcome), unlike the
write path, where 3 straight 429 responses end in the exhaustion error. -/
theorem sku_id_map_rate_limit_uncapped :
    (∀ s : WalkState, walkStep s .rateLimited = .next s 2)
    ∧ (∀ (n : Nat) (s : WalkState) (rs : List PageResp) (k : Nat),
        sku_id_map_aux s (List.replicate n .rateLimited ++ rs) k
          = sku_id_map_aux s rs (k + n))
    ∧ (∀ (n : Nat) (s : WalkState) (k : Nat),
        sku_id_map_aux s (List.replicate n .rateLimited) k = none)
    ∧ (∀ resps : Nat → WriteResp, (∀ i, i < 3 → resps i = .rateLimited) →
        (push_batch resps).1 = .exhausted) := by
  refine ⟨fun s => rfl, fun n => sku_id_map_aux_replicate_429 n, ?_, ?_⟩
  · intro n s k
    have h := sku_id_map_aux_replicate_429 n s [] k
    rw [List.append_nil] at h
    rw [h]
    rfl
  · intro resps h
    simp [push_batch, push_batch_loop,
      h 0 (by omega), h 1 (by omega), h 2 (by omega)]

/-- Witness for the uncapped read retry claim: five straight 429 responses
leave the walk waiting with no error, while the write path exhausts. -/
theorem sku_id_map_rate_limit_uncapped_witness :
    sku_id_map_aux { m := [], page := 1 } (List.replicate 5 .rateLimited) 0 = none
    ∧ (push_batch (fun _ => WriteResp.rateLimited)).1 = .exhausted :=
  ⟨sku_id_map_rate_limit_uncapped.2.2.1 5 { m := [], page := 1 } 0,
   sku_id_map_rate_limit_uncapped.2.2.2 (fun _ => WriteResp.rateLimited) (fun _ _ => rfl)⟩

/-- Every chunk produced by the slicing loop has at most size elements. -/
theorem chunksOfF_chunk_le {α : Type u} (size : Nat) :
    ∀ (fuel : Nat) (xs : List α), ∀ c ∈ chunksOfF size fuel xs, c.length ≤ size := by
  intro fuel
  induction fuel with
  | zero => intro xs c hc; cases xs <;> simp [chunksOfF] at hc
  | succ f ih =>
    intro xs c hc
    cases xs with
    | nil => simp [chunksOfF] at hc
    | cons x rest =>
      simp only [chunksOfF, List.mem_cons] at hc
      rcases hc with rfl | hc
      · exact List.length_take_le size (x :: rest)
      · exact ih _ c hc

/-- With enough fuel, the number of chunks is the length divided by size,
rounded up. -/
theorem chunksOfF_length {α : Type u} (size : Nat) (hs : 0 < size) :
    ∀ (fuel : Nat) (xs : List α), xs.length ≤ fuel →
      (chunksOfF size fuel xs).length = (xs.length + (size - 1)) / size := by
  intro fuel
  induction fuel with
  | zero =>
    intro xs hx
    have hxe : xs = [] := List.eq_nil_of_length_eq_zero (Nat.le_zero.mp hx)
    subst hxe
    simp [chunksOfF, Nat.div_eq_of_lt (show size - 1 < size by omega)]
  | succ f ih =>
    intro xs hx
    cases xs with
    | nil => simp [chunksOfF, Nat.div_eq_of_lt (show size - 1 < size by omega)]
    | cons x rest =>
      have hxl : rest.length + 1 ≤ f + 1 := by simpa using hx
      have hdl : ((x :: rest).drop size).length = rest.length + 1 - size := by
        simp [List.length_drop]
      have hle : ((x :: rest).drop size).length ≤ f := by rw [hdl]; omega
      simp only [chunksOfF, List.length_cons]
      rw [ih _ hle, hdl]
      have hnum : (rest.length + 1 - size + (size - 1)) / size
          = (rest.length + 1 - 1) / size := by
        by_cases hc : size ≤ rest.length + 1
        · have he : rest.length + 1 - size + (size - 1) = rest.length + 1 - 1 := by omega
          rw [he]
        · have e1 : rest.length + 1 - size = 0 := by omega
          rw [e1, Nat.zero_add, Nat.div_eq_of_lt (by omega), Nat.div_eq_of_lt (by omega)]
      have hsplit : rest.length + 1 + (size - 1) = (rest.length + 1 - 1) + size := by omega
      rw [hnum, hsplit, Nat.add_div_right _ hs]

/-- With enough fuel, concatenating the chunks gives back the input: the
chunks are consecutive slices. -/
theorem chunksOfF_join {α : Type u} (size : Nat) (hs : 0 < size) :
    ∀ (fuel : Nat) (xs : List α), xs.length ≤ fuel → (chunksOfF size fuel xs).flatten = xs := by
  intro fuel
  induction fuel with
  | zero =>
    intro xs hx
    have hxe : xs = [] := List.eq_nil_of_length_eq_zero (Nat.le_zero.mp hx)
    subst hxe
    rfl
  | succ f ih =>
    intro xs hx
    cases xs with
    | nil => rfl
    | cons x rest =>
      have hxl : rest.length + 1 ≤ f + 1 := by simpa using hx
      have hle : ((x :: rest).drop size).length ≤ f := by
        have hl : (x :: rest).length = rest.length + 1 := rfl
        simp only [List.length_drop, hl]
        omega
      simp only [chunksOfF, List.flatten_cons]
      rw [ih _ hle]
      exact List.take_append_drop size (x :: rest)

/-- When every chunk succeeds, the dispatch loop submits exactly one batch
request per chunk. -/
theorem dispatchKind_success_trace (oracle : Nat → Nat → WriteResp)
    (mk : List SyncPayload → BatchReq) (count : WooBatchBody → Nat)
    (bf : Nat → WooBatchBody)
    (h : ∀ j, (push_batch (oracle j)).1 = .success (bf j)) :
    ∀ (chunks : List (List SyncPayload)) (callIdx total : Nat) (trace : List BatchReq),
      (dispatchKind oracle mk count chunks callIdx total trace).2.2.length
        = trace.length + chunks.length := by
  intro chunks
  induction chunks with
  | nil => intro ci t tr; rfl
  | cons c cs ih =>
    intro ci t tr
    simp only [dispatchKind, h ci]
    rw [ih]
    simp [List.length_append]
    omega

/-- Fetching from an empty parts table yields no records. -/
theorem fetch_parts_nil (limit : Option Int) : fetch_parts [] limit = [] := by
  cases limit with
  | none => rfl
  | some l =>
    by_cases h : 0 < l <;> simp [fetch_parts, sortByMpn, h]

/-- Claim C8: the dispatcher splits any payload list into consecutive chunks
of at most BATCH = 100 payloads whose concatenation is the input; the number
of chunks, and hence of submitted batch requests when every chunk succeeds,
is the length plus 99 divided by 100 (the ceiling of length over 100); and a
run over an empty parts table issues no write call and returns the summary
with zero created and zero updated. -/
theorem dispatch_chunking :
    (∀ (xs : List SyncPayload), ∀ c ∈ chunksOf BATCH xs, c.length ≤ BATCH)
    ∧ (∀ xs : List SyncPayload,
        (chunksOf BATCH xs).length = (xs.length + (BATCH - 1)) / BATCH)
    ∧ (∀ xs : List SyncPayload, (chunksOf BATCH xs).flatten = xs)
    ∧ (∀ (oracle : Nat → Nat → WriteResp) (mk : List SyncPayload → BatchReq)
        (count : WooBatchBody → Nat) (bf : Nat → WooBatchBody) (xs : List SyncPayload),
        (∀ j, (push_batch (oracle j)).1 = .success (bf j)) →
        (dispatchKind oracle mk count (chunksOf BATCH xs) 0 0 []).2.2.length
          = (xs.length + (BATCH - 1)) / BATCH)
    ∧ (∀ (env : RunEnv) (limit : Option Int) (m : List (String × Int)) (n : Nat),
        env.dbRows = [] → sku_id_map env.pageResps = some (.ok m, n) →
        run env limit false
          = some { result := .ok { created := 0, updated := 0, dry_run := false },
                   pageRequests := n, writeBodies := [] }) := by
  refine ⟨?_, ?_, ?_, ?_, ?_⟩
  · exact fun xs => chunksOfF_chunk_le BATCH xs.length xs
  · exact fun xs => chunksOfF_length BATCH (by decide) xs.length xs le_rfl
  · exact fun xs => chunksOfF_join BATCH (by decide) xs.length xs le_rfl
  · intro oracle mk count bf xs h
    rw [dispatchKind_success_trace oracle mk count bf h (chunksOf BATCH xs) 0 0 []]
    simp only [List.length_nil, Nat.zero_add, chunksOf]
    exact chunksOfF_length BATCH (by decide) xs.length xs le_rfl
  · intro env limit m n hdb h
    simp [run, h, hdb, fetch_parts_nil, reconcile, runWet, wetD1, wetD2,
      chunksOf, chunksOfF, dispatchKind]

/-- Witness for the chunking claim: a one element list is its own single
chunk of length at most 100; an empty payload list yields zero requests
under an always succeeding oracle; and a run with no parts and one empty
remote page returns zero counts with no write call. -/
theorem dispatch_chunking_witness :
    ([to_payload { mpn := "A", name := "A", price := "1.00", stock_qty := 1 }]).length ≤ BATCH
    ∧ (dispatchKind (fun _ _ => WriteResp.ok { create := [], update := [] })
        BatchReq.createReq (fun b => b.create.length)
        (chunksOf BATCH ([] : List SyncPayload)) 0 0 []).2.2.length
        = (([] : List SyncPayload).length + (BATCH - 1)) / BATCH
    ∧ run { dbRows := [], pageResps := [.ok []], writeResps := fun _ _ => WriteResp.ok { create := [], update := [] } }
        none false
        = some { result := .ok { created := 0, updated := 0, dry_run := false },
                 pageRequests := 1, writeBodies := [] } :=
  ⟨dispatch_chunking.1 [to_payload { mpn := "A", name := "A", price := "1.00", stock_qty := 1 }]
      [to_payload { mpn := "A", name := "A", price := "1.00", stock_qty := 1 }] (by decide),
   dispatch_chunking.2.2.2.1 (fun _ _ => WriteResp.ok { create := [], update := [] })
      BatchReq.createReq (fun b => b.create.length)
      (fun _ => { create := [], update := [] }) [] (fun j => rfl),
   dispatch_chunking.2.2.2.2
      { dbRows := [], pageResps := [.ok []],
        writeResps := fun _ _ => WriteResp.ok { create := [], update := [] } }
      none [] 1 rfl rfl⟩

/-- Claim C5: a dry run issues no batch write call and returns exactly the
summary with created the length of the planned create list, updated the
length of the planned update list, and dry_run true, for any remote index
contents. -/
theorem run_dry_no_writes (env : RunEnv) (limit : Option Int)
    (m : List (String × Int)) (n : Nat)
    (h : sku_id_map env.pageResps = some (.ok m, n)) :
    run env limit true
      = some { result := .ok
                 { created := (reconcile (fetch_parts env.dbRows limit) m).1.length,
                   updated := (reconcile (fetch_parts env.dbRows limit) m).2.length,
                   dry_run := true },
               pageRequests := n, writeBodies := [] } := by
  simp [run, h]

/-- Witness for the dry run claim: one part, one remote page binding its mpn
to the id 7, dry run returns one planned update and no write call. -/
theorem run_dry_no_writes_witness :
    run { dbRows := [{ mpn := "A", name := some "A", price := some 1, stock_qty := some 2 }],
          pageResps := [.ok [{ id := 7, sku := some "A" }], .ok []],
          writeResps := fun _ _ => WriteResp.rateLimited }
        none true
      = some { result := .ok
                 { created := (reconcile (fetch_parts
                     [{ mpn := "A", name := some "A", price := some 1, stock_qty := some 2 }] none)
                     [("A", 7)]).1.length,
                   updated := (reconcile (fetch_parts
                     [{ mpn := "A", name := some "A", price := some 1, stock_qty := some 2 }] none)
                     [("A", 7)]).2.length,
                   dry_run := true },
               pageRequests := 2, writeBodies := [] } :=
  run_dry_no_writes
    { dbRows := [{ mpn := "A", name := some "A", price := some 1, stock_qty := some 2 }],
      pageResps := [.ok [{ id := 7, sku := some "A" }], .ok []],
      writeResps := fun _ _ => WriteResp.rateLimited }
    none [("A", 7)] 2 rfl

/-- Whatever the write outcomes, the write phase reports the page request
count it was handed. -/
theorem runWet_pageRequests (oracle : Nat → Nat → WriteResp)
    (cu : List SyncPayload × List SyncPayload) (nPages : Nat) :
    (runWet oracle cu nPages).pageRequests = nPages := by
  rcases h1 : (wetD1 oracle cu).1 with e | ct
  · simp [runWet, h1]
  · rcases h2 : (wetD2 oracle cu).1 with e | ut
    · simp [runWet, h1, h2]
    · simp [runWet, h1, h2]

/-- Claim C10: a dry run still performs the database fetch and the complete
pagination walk before the dry run check: the dry run issues exactly the
same page requests as a wet run over the same environment, still fails when
the walk fails, and computes its summary from the fetched rows; only the
write phase is suppressed. -/
theorem run_dry_still_reads (env : RunEnv) (limit : Option Int)
    (r : Except Nat (List (String × Int))) (n : Nat)
    (h : sku_id_map env.pageResps = some (r, n)) :
    (∃ t, run env limit true = some t ∧ t.pageRequests = n ∧ t.writeBodies = [])
    ∧ (run env limit false).isSome
    ∧ (∀ w, run env limit false = some w → w.pageRequests = n)
    ∧ (∀ code, r = .error code →
        run env limit true
          = some { result := .error (.pageErr code), pageRequests := n, writeBodies := [] })
    ∧ (∀ m, r = .ok m →
        run env limit true
          = some { result := .ok
                     { created := (reconcile (fetch_parts env.dbRows limit) m).1.length,
                       updated := (reconcile (fetch_parts env.dbRows limit) m).2.length,
                       dry_run := true },
                   pageRequests := n, writeBodies := [] }) := by
  cases r with
  | error code =>
    have ht : run env limit true
        = some { result := .error (.pageErr code), pageRequests := n, writeBodies := [] } := by
      simp [run, h]
    have hf : run env limit false
        = some { result := .error (.pageErr code), pageRequests := n, writeBodies := [] } := by
      simp [run, h]
    refine ⟨⟨_, ht, rfl, rfl⟩, by rw [hf]; rfl, ?_, ?_, ?_⟩
    · intro w hw
      rw [hf] at hw
      cases hw
      rfl
    · intro c hc
      cases hc
      exact ht
    · intro m hm
      cases hm
  | ok m =>
    have ht : run env limit true
        = some { result := .ok
                   { created := (reconcile (fetch_parts env.dbRows limit) m).1.length,
                     updated := (reconcile (fetch_parts env.dbRows limit) m).2.length,
                     dry_run := true },
                 pageRequests := n, writeBodies := [] } := by
      simp [run, h]
    have hf : run env limit false
        = some (runWet env.writeResps (reconcile (fetch_parts env.dbRows limit) m) n) := by
      simp [run, h]
    refine ⟨⟨_, ht, rfl, rfl⟩, by rw [hf]; rfl, ?_, ?_, ?_⟩
    · intro w hw
      rw [hf] at hw
      cases hw
      exact runWet_pageRequests env.writeResps (reconcile (fetch_parts env.dbRows limit) m) n
    · intro c hc
      cases hc
    · intro m' hm'
      cases hm'
      exact ht

/-- Witness for the dry run network claim: with one part row and a walk that
sees one 429, one nonempty page and one empty page, the dry run consumes all
four page requests and issues no write. -/
theorem run_dry_still_reads_witness :
    (∃ t, run
        { dbRows := [{ mpn := "A", name := none, price := some 1, stock_qty := none }],
          pageResps := [.rateLimited, .ok [{ id := 7, sku := some "A" }], .ok []],
          writeResps := fun _ _ => WriteResp.rateLimited }
        none true = some t ∧ t.pageRequests = 3 ∧ t.writeBodies = []) :=
  (run_dry_still_reads
    { dbRows := [{ mpn := "A", name := none, price := some 1, stock_qty := none }],
      pageResps := [.rateLimited, .ok [{ id := 7, sku := some "A" }], .ok []],
      writeResps := fun _ _ => WriteResp.rateLimited }
    none (.ok [("A", 7)]) 3 rfl).1

/-- Membership in an ordered insertion. -/
theorem mem_insertByMpn (r x : PartRecord) (l : List PartRecord) :
    x ∈ insertByMpn r l ↔ x = r ∨ x ∈ l := by
  induction l with
  | nil => simp [insertByMpn]
  | cons y ys ih =>
    by_cases h : r.mpn ≤ y.mpn
    · simp [insertByMpn, h]
    · simp [insertByMpn, h, ih]
      tauto

/-- Sorting by mpn neither adds nor removes records. -/
theorem mem_sortByMpn (x : PartRecord) : ∀ l : List PartRecord, x ∈ sortByMpn l ↔ x ∈ l := by
  intro l
  induction l with
  | nil => simp [sortByMpn]
  | cons y ys ih =>
    show x ∈ insertByMpn y (sortByMpn ys) ↔ _
    rw [mem_insertByMpn, ih]
    simp

/-- Every fetched record is the SELECT projection of a table row whose price
is not null. -/
theorem mem_fetch_parts (rows : List DbRow) (limit : Option Int) (p : PartRecord)
    (hp : p ∈ fetch_parts rows limit) :
    ∃ r ∈ rows, r.price.isSome ∧ p = selectRow r := by
  have hsorted : p ∈ sortByMpn ((rows.filter (fun r => r.price.isSome)).map selectRow) := by
    cases limit with
    | none => exact hp
    | some l =>
      by_cases h : 0 < l
      · have hp' := hp
        simp only [fetch_parts, if_pos h] at hp'
        exact List.mem_of_mem_take hp'
      · simpa [fetch_parts, if_neg h] using hp
  rw [mem_sortByMpn] at hsorted
  obtain ⟨r, hr, hpr⟩ := List.mem_map.mp hsorted
  have hf := List.mem_filter.mp hr
  exact ⟨r, hf.1, by simpa using hf.2, hpr.symm⟩

/-- Claim C3 as stated is false: the SELECT substitutes 0 only for a NULL
stock_qty and does not clamp stored values, so a row holding the value minus
one is fetched with a negative stock_qty. -/
theorem fetch_parts_negative_stock_cex :
    (fetch_parts [{ mpn := "A", name := some "A", price := some 1, stock_qty := some (-1) }]
        none).map (fun p => p.stock_qty) = [-1]
    ∧ (-1 : Int) < 0 :=
  ⟨rfl, by decide⟩

/-- Claim C3 amended: the stock_qty of every fetched record equals the
stored value with 0 substituted for NULL; it is therefore non negative
whenever every stored value is, but negative stored values pass through
unclamped. -/
theorem fetch_parts_stock_coalesce (rows : List DbRow) (limit : Option Int) :
    (∀ r : DbRow, (selectRow r).stock_qty = r.stock_qty.getD 0)
    ∧ (∀ r : DbRow, r.stock_qty = none → (selectRow r).stock_qty = 0)
    ∧ ((∀ r ∈ rows, ∀ v : Int, r.stock_qty = some v → 0 ≤ v) →
        ∀ p ∈ fetch_parts rows limit, 0 ≤ p.stock_qty) := by
  refine ⟨fun r => rfl, fun r h => by simp [selectRow, h], ?_⟩
  intro hnn p hp
  obtain ⟨r, hr, _, hpr⟩ := mem_fetch_parts rows limit p hp
  subst hpr
  cases hs : r.stock_qty with
  | none => simp [selectRow, hs]
  | some v =>
    have hv := hnn r hr v hs
    simpa [selectRow, hs] using hv

/-- Witness for the amended stock claim: a concrete table whose one stored
quantity is non negative yields a non negative fetched quantity. -/
theorem fetch_parts_stock_coalesce_witness :
    0 ≤ (selectRow { mpn := "A", name := some "A", price := some 1, stock_qty := some 2 }).stock_qty :=
  (fetch_parts_stock_coalesce
      [{ mpn := "A", name := some "A", price := some 1, stock_qty := some 2 }] none).2.2
    (by
      intro r hr v hv
      simp only [List.mem_singleton] at hr
      subst hr
      injection hv with h
      omega)
    (selectRow { mpn := "A", name := some "A", price := some 1, stock_qty := some 2 })
    (by
      show selectRow _ ∈ [selectRow _]
      simp)

/-- Claim C9: every fetched record comes from a table row, and when that row
has a NULL name the SQL substitutes the mpn, so the record and the payload
built from it carry the mpn as name, which is nonempty whenever the mpn is. -/
theorem fetch_parts_name_coalesce (rows : List DbRow) (limit : Option Int) (p : PartRecord)
    (hp : p ∈ fetch_parts rows limit) :
    ∃ r ∈ rows, p = selectRow r
      ∧ (r.name = none →
          p.name = r.mpn
          ∧ (to_payload p).name = r.mpn
          ∧ (r.mpn ≠ "" → (to_payload p).name ≠ "")) := by
  obtain ⟨r, hr, _, hpr⟩ := mem_fetch_parts rows limit p hp
  refine ⟨r, hr, hpr, ?_⟩
  intro hn
  subst hpr
  refine ⟨by simp [selectRow, hn], by simp [to_payload, selectRow, hn], ?_⟩
  intro hm
  simpa [to_payload, selectRow, hn] using hm

/-- Witness for the name coalescing claim: one row with a NULL name and the
nonempty mpn A is fetched with name A and maps to a payload with name A. -/
theorem fetch_parts_name_coalesce_witness :
    ∃ r ∈ ([{ mpn := "A", name := none, price := some 1, stock_qty := some 0 }] : List DbRow),
      selectRow { mpn := "A", name := none, price := some 1, stock_qty := some 0 } = selectRow r
      ∧ (r.name = none →
          (selectRow { mpn := "A", name := none, price := some 1, stock_qty := some 0 }).name = r.mpn
          ∧ (to_payload (selectRow { mpn := "A", name := none, price := some 1, stock_qty := some 0 })).name = r.mpn
          ∧ (r.mpn ≠ "" →
              (to_payload (selectRow { mpn := "A", name := none, price := some 1, stock_qty := some 0 })).name ≠ "")) :=
  fetch_parts_name_coalesce
    [{ mpn := "A", name := none, price := some 1, stock_qty := some 0 }] none
    (selectRow { mpn := "A", name := none, price := some 1, stock_qty := some 0 })
    (by
      show selectRow _ ∈ [selectRow _]
      simp)

end Sync
